import Mathlib

/-!
Shallow embedding of the yas artifact scanner (entry point `src/main.rs`),
together with spec-modelled definitions for the components whose source is
not part of this repository snapshot (scan orchestrator, CTC decoder,
frame preprocessor).  All machine integers are modelled as `Int`/`Nat`;
the i32 values appearing here (window coordinates, offsets) never overflow
in the code paths we verify, so no wrap-around modelling is needed.
-/

namespace Yas

/-- Window/field rectangle `{left, top, width, height}` in screen pixels,
mirroring `PixelRect` from `yas::common` as used by `main.rs`. -/
structure PixelRect where
  left : Int
  top : Int
  width : Int
  height : Int
  deriving DecidableEq, Repr

/-- The five supported aspect-ratio buckets of `main.rs` lines 238-252
(`from_43_18`, `from_16_9`, `from_8_5`, `from_4_3`, `from_7_3`). -/
inductive AspectBucket where
  | r43_18
  | r16_9
  | r8_5
  | r4_3
  | r7_3
  deriving DecidableEq, Repr

/-- The exact cross-multiplied ratio tests of `main.rs` lines 238-252, in
source order; `none` corresponds to the `error_and_quit` branch. -/
def selectBucket (rect : PixelRect) : Option AspectBucket :=
  if rect.height * 43 = rect.width * 18 then some AspectBucket.r43_18
  else if rect.height * 16 = rect.width * 9 then some AspectBucket.r16_9
  else if rect.height * 8 = rect.width * 5 then some AspectBucket.r8_5
  else if rect.height * 4 = rect.width * 3 then some AspectBucket.r4_3
  else if rect.height * 7 = rect.width * 3 then some AspectBucket.r7_3
  else none

/-- Modelled from the spec: `ScanInfo` (yas::info, not in this snapshot)
holds the window position plus the per-bucket, window-relative field
rectangles (list-item slots, stat panel sub-regions, count indicator). -/
structure ScanInfo where
  left : Int
  top : Int
  width : Nat
  height : Nat
  fields : List PixelRect
  deriving DecidableEq, Repr

/-- Modelled from the spec: the per-bucket relative layout constants of the
`ScanInfo::from_*` constructors (missing from this snapshot).  Each bucket
carries its own constants; rectangles are window-relative and scale with
the window dimensions.  The exact constants are not observable from the
available source, so representative ones are used. -/
def layoutFields (b : AspectBucket) (w h : Nat) : List PixelRect :=
  let wi : Int := (w : Int)
  let hi : Int := (h : Int)
  match b with
  | AspectBucket.r43_18 =>
      [⟨wi / 12, hi / 10, wi / 8, hi / 8⟩,
       ⟨wi * 2 / 3, hi / 6, wi / 4, hi * 2 / 3⟩,
       ⟨wi / 2, hi / 20, wi / 6, hi / 20⟩]
  | AspectBucket.r16_9 =>
      [⟨wi / 10, hi / 9, wi / 7, hi / 7⟩,
       ⟨wi * 7 / 10, hi / 6, wi / 4, hi * 2 / 3⟩,
       ⟨wi / 2, hi / 18, wi / 6, hi / 18⟩]
  | AspectBucket.r8_5 =>
      [⟨wi / 10, hi / 8, wi / 7, hi / 6⟩,
       ⟨wi * 7 / 10, hi / 5, wi / 4, hi * 2 / 3⟩,
       ⟨wi / 2, hi / 16, wi / 6, hi / 16⟩]
  | AspectBucket.r4_3 =>
      [⟨wi / 10, hi / 7, wi / 6, hi / 6⟩,
       ⟨wi * 7 / 10, hi / 5, wi / 4, hi * 3 / 5⟩,
       ⟨wi / 2, hi / 14, wi / 6, hi / 14⟩]
  | AspectBucket.r7_3 =>
      [⟨wi / 14, hi / 9, wi / 9, hi / 7⟩,
       ⟨wi * 7 / 10, hi / 6, wi / 5, hi * 2 / 3⟩,
       ⟨wi / 2, hi / 18, wi / 8, hi / 18⟩]

/-- The geometry-derivation step of `main.rs` lines 237-252: the if/else
chain over the five cross-multiplied ratio tests (factored through
`selectBucket`), calling the bucket's `ScanInfo` constructor with
`(width as u32, height as u32, left, top)`; the final `else` branch calls
`error_and_quit("不支持的分辨率")`, modelled as `Except.error`. -/
def deriveScanInfo (rect : PixelRect) : Except String ScanInfo :=
  match selectBucket rect with
  | some b =>
      Except.ok
        { left := rect.left
          top := rect.top
          width := rect.width.toNat
          height := rect.height.toNat
          fields := layoutFields b rect.width.toNat rect.height.toNat }
  | none => Except.error "不支持的分辨率"

/-- The operator offset correction of `main.rs` lines 254-265:
`info.left += offset_x; info.top += offset_y`. -/
def applyOffsets (info : ScanInfo) (ox oy : Int) : ScanInfo :=
  { info with left := info.left + ox, top := info.top + oy }

/-- Translate a rectangle by a pixel offset pair. -/
def translateRect (ox oy : Int) (r : PixelRect) : PixelRect :=
  { r with left := r.left + ox, top := r.top + oy }

/-- Modelled from the spec: the derived geometry set is the window-relative
field rectangles placed at the window origin `(info.left, info.top)`. -/
def absoluteRects (info : ScanInfo) : List PixelRect :=
  info.fields.map (fun r => { r with left := info.left + r.left, top := info.top + r.top })

/-- The three export schemas of `main.rs` lines 280-290. -/
inductive ExportSchema where
  | mona
  | mingyulab
  | good
  deriving DecidableEq, Repr

/-- The export dispatch of `main.rs` lines 274-291: the output path is
computed once as `output_dir.join(format!("{output_format}.json"))` and
every `save` in the selected branch receives that same path.  The result
lists the `(schema, path)` writes in program order; `none` is the
`unreachable!()` arm (clap restricts the flag to the four listed values). -/
def exportWrites (outputDir : String) (outputFormat : String) : Option (List (ExportSchema × String)) :=
  let filename := outputDir ++ "/" ++ outputFormat ++ ".json"
  match outputFormat with
  | "mona" => some [(ExportSchema.mona, filename)]
  | "mingyulab" => some [(ExportSchema.mingyulab, filename)]
  | "good" => some [(ExportSchema.good, filename)]
  | "all" => some [(ExportSchema.mona, filename),
                   (ExportSchema.mingyulab, filename),
                   (ExportSchema.good, filename)]
  | _ => none

/-- Digit accumulator for `parseInt`: consumes decimal digits, failing on
any non-digit character. -/
def parseDigits : List Char → Nat → Option Nat
  | [], n => some n
  | c :: cs, n =>
      if c.isDigit then parseDigits cs (n * 10 + (c.toNat - 48))
      else none

/-- Rust `str::parse::<i32>` as used by `main.rs` lines 94-97: an optional
sign followed by at least one decimal digit; any other shape fails.  The
parsed values (window coordinates) are far below i32 range, so overflow is
not modelled. -/
def parseInt (s : String) : Option Int :=
  match s.data with
  | [] => none
  | c :: cs =>
      if c = Char.ofNat 45 then
        match cs with
        | [] => none
        | _ => (parseDigits cs 0).map (fun n => -(n : Int))
      else if c = Char.ofNat 43 then
        match cs with
        | [] => none
        | _ => (parseDigits cs 0).map (fun n => (n : Int))
      else (parseDigits (c :: cs) 0).map (fun n => (n : Int))

/-- The Linux `detect_gi_window` of `main.rs` lines 65-108: the xwininfo
shell output (already split on newlines) is parsed into four integers
`left, top, width, height`; each `unwrap` of a missing or unparsable line
is modelled as `none`.  The function always returns `is_cloud = false`
(line 105, `// todo: detect cloud genshin by title`). -/
def detect_gi_window (posLines : List String) : Option (PixelRect × Bool) :=
  match posLines with
  | l :: t :: w :: h :: _ =>
      match parseInt l, parseInt t, parseInt w, parseInt h with
      | some left, some top, some width, some height =>
          some ({ left := left, top := top, width := width, height := height }, false)
      | _, _, _, _ => none
  | _ => none

/-- Modelled from the spec: the scanner configuration of §4.4
(`YasScannerConfig::from_match`, not in this snapshot).  `totalCount` is
the configured (manual override) or auto-detected total slot count. -/
structure ScannerConfig where
  minStar : Nat
  minLevel : Nat
  maxWaitSwitch : Nat
  cloudWaitSwitch : Nat
  scrollStop : Nat
  totalCount : Nat
  dump : Bool
  captureOnly : Bool
  deriving DecidableEq, Repr

/-- Modelled from the spec: the per-slot settle wait is the independently
configured cloud value when the session runs against the cloud variant,
and the local value otherwise (`YasScanner`, not in this snapshot). -/
def switchWait (cfg : ScannerConfig) (isCloud : Bool) : Nat :=
  if isCloud then cfg.cloudWaitSwitch else cfg.maxWaitSwitch

/-- Modelled from the spec: an `ArtifactRecord` aggregates the recognized
fields of one slot (§3). -/
structure ArtifactRecord where
  name : String
  mainStat : String
  subStats : List String
  level : Nat
  star : Nat
  equippedBy : String
  locked : Bool
  deriving DecidableEq, Repr

/-- Modelled from the spec: the min-star / min-level acceptance filter of
the FilterAndAppend step (§4.4 item 6). -/
def passesFilter (cfg : ScannerConfig) (r : ArtifactRecord) : Bool :=
  cfg.minStar ≤ r.star && cfg.minLevel ≤ r.level

/-- Modelled from the spec: the mutable session state of the orchestrator
(§3 ScanSession): append-only results, scanned-slot counter, and the
first-ever recognized record kept for termination comparison. -/
structure ScanState where
  results : List ArtifactRecord
  scanned : Nat
  firstRecord : Option ArtifactRecord
  deriving DecidableEq, Repr

/-- The fresh session state: no results, no slot scanned, no first record. -/
def initialState : ScanState :=
  { results := [], scanned := 0, firstRecord := none }

/-- Modelled from the spec: processing one recognized record — the record
is appended to the results only if it passes the filter, it counts toward
the scanned-slot counter regardless, and the first-ever recognized record
is latched (§4.4 items 5-6). -/
def stepState (cfg : ScannerConfig) (st : ScanState) (r : ArtifactRecord) : ScanState :=
  { results := if passesFilter cfg r then st.results ++ [r] else st.results
    scanned := st.scanned + 1
    firstRecord := match st.firstRecord with
      | none => some r
      | some f => some f }

/-- Modelled from the spec: the CheckTermination repeat test — stop when
the new record equals the first-ever recognized record and at least one
slot has already been accepted (§4.4 item 5). -/
def stopByRepeat (st : ScanState) (r : ArtifactRecord) : Bool :=
  match st.firstRecord with
  | none => false
  | some f => decide (r = f) && decide (1 ≤ st.scanned)

/-- Modelled from the spec: the scan orchestration loop (§4.4) over a
synthetic slot feed.  Before each slot it stops if the configured or
auto-detected total slot count has been reached, then applies the repeat
termination test to the slot's recognized record, and otherwise filters,
appends, counts, and advances to the next slot. -/
def scanLoop (cfg : ScannerConfig) : ScanState → List ArtifactRecord → ScanState
  | st, [] => st
  | st, r :: rest =>
      if cfg.totalCount ≤ st.scanned then st
      else if stopByRepeat st r then st
      else scanLoop cfg (stepState cfg st r) rest

/-- A whole session as run by `main`: geometry derivation first (fatal on
unsupported resolution, `main.rs` lines 237-252), then the scan loop; no
scanning happens when geometry derivation fails. -/
def runSession (rect : PixelRect) (cfg : ScannerConfig) (feed : List ArtifactRecord) :
    Except String (List ArtifactRecord) :=
  match deriveScanInfo rect with
  | Except.error e => Except.error e
  | Except.ok _ => Except.ok (scanLoop cfg initialState feed).results

/-- Collapse consecutive repeats of the same symbol into one occurrence. -/
def collapseRepeats {α : Type} [DecidableEq α] : List α → List α
  | [] => []
  | [a] => [a]
  | a :: b :: rest =>
      if a = b then collapseRepeats (b :: rest)
      else a :: collapseRepeats (b :: rest)

/-- Modelled from the spec: the best-path CTC decode of §4.3 (the
`CRNNModel` inference code is not in this snapshot).  The per-time-step
symbol sequence uses `none` for the designated blank / no-output symbol;
consecutive repeats are collapsed into one, all blanks are dropped, and
the survivors are concatenated into the final string. -/
def ctcDecode (seq : List (Option Char)) : String :=
  String.mk ((collapseRepeats seq).filterMap id)

/-- Modelled from the spec: index of the first maximum of a per-step score
vector (the highest-probability symbol of §4.3). -/
def argmaxIdx (scores : List Nat) : Nat :=
  (scores.enum.foldl
    (fun best cur => if best.2 < cur.2 then cur else best) (0, 0)).1

/-- Modelled from the spec: greedy decoding of a per-step distribution
sequence — take the highest-probability vocabulary symbol at each step,
then CTC-collapse. -/
def recognize (vocab : List (Option Char)) (probs : List (List Nat)) : String :=
  ctcDecode (probs.map (fun p => vocab.getD (argmaxIdx p) none))

/-- Modelled from the spec: a captured single-channel frame (`RawImage`,
not in this snapshot): dimensions plus a total pixel accessor
`data row col`. -/
structure RawImage where
  w : Nat
  h : Nat
  data : Nat → Nat → Nat

/-- Left edge of the crop window, clipped into the frame. -/
def cropX0 (im : RawImage) (r : PixelRect) : Nat :=
  min r.left.toNat im.w

/-- Top edge of the crop window, clipped into the frame. -/
def cropY0 (im : RawImage) (r : PixelRect) : Nat :=
  min r.top.toNat im.h

/-- Right edge (exclusive) of the crop window, clipped into the frame. -/
def cropX1 (im : RawImage) (r : PixelRect) : Nat :=
  min (r.left + r.width).toNat im.w

/-- Bottom edge (exclusive) of the crop window, clipped into the frame. -/
def cropY1 (im : RawImage) (r : PixelRect) : Nat :=
  min (r.top + r.height).toNat im.h

/-- Modelled from the spec: `crop(frame, rect)` of §4.2 (the
`pre_process::crop` code is not in this snapshot) — the requested
rectangle is clipped to the frame bounds and the sub-image reads its
pixels from the clipped region, so no access falls outside the frame. -/
def crop (im : RawImage) (r : PixelRect) : RawImage :=
  { w := cropX1 im r - cropX0 im r
    h := cropY1 im r - cropY0 im r
    data := fun i j => im.data (cropY0 im r + i) (cropX0 im r + j) }

/-- Modelled from the spec: the WaitForRender poll loop (§4.4 item 2) with
an injected fingerprint source `fp` indexed by poll tick.  Starting at
tick `t` with at most `fuel` re-polls left, it returns the tick at which
the slot proceeds to capture: immediately when the fingerprint differs
from the previous slot's, and at the latest when the budget is spent
(timeout is non-fatal). -/
def pollUntil (fp : Nat → Nat) (prev : Nat) : Nat → Nat → Nat
  | 0, t => t
  | fuel + 1, t => if fp t = prev then pollUntil fp prev fuel (t + 1) else t

/-- Modelled from the spec: the captures performed for one slot — exactly
one frame, taken at the tick where `pollUntil` settles. -/
def slotCaptures (fp : Nat → Nat) (prev : Nat) (fuel t : Nat) : List Nat :=
  [fp (pollUntil fp prev fuel t)]

/-- A concrete scanner configuration used to instantiate theorems. -/
def sampleConfig : ScannerConfig :=
  { minStar := 4
    minLevel := 0
    maxWaitSwitch := 800
    cloudWaitSwitch := 2000
    scrollStop := 80
    totalCount := 1500
    dump := false
    captureOnly := false }

/-- A concrete 5-star record that passes `sampleConfig`'s filter. -/
def recA : ArtifactRecord :=
  { name := "a", mainStat := "atk", subStats := [], level := 20, star := 5,
    equippedBy := "", locked := false }

/-- A second concrete record, distinct from `recA`, passing the filter. -/
def recB : ArtifactRecord :=
  { name := "b", mainStat := "hp", subStats := [], level := 16, star := 5,
    equippedBy := "", locked := false }

/-- A concrete 3-star record that fails `sampleConfig`'s min-star filter. -/
def recC : ArtifactRecord :=
  { name := "c", mainStat := "def", subStats := [], level := 4, star := 3,
    equippedBy := "", locked := false }

/-- The `ScanInfo` derived for a 1600×900 (16:9) window at the origin. -/
def sampleInfo : ScanInfo :=
  { left := 0
    top := 0
    width := 1600
    height := 900
    fields := layoutFields AspectBucket.r16_9 1600 900 }

/-- A concrete 4×3 frame whose pixel at `(row, col)` is `row * 10 + col`. -/
def imEx : RawImage :=
  { w := 4, h := 3, data := fun i j => i * 10 + j }

/-- A concrete crop rectangle extending past the bounds of `imEx`. -/
def rEx : PixelRect :=
  { left := 2, top := 1, width := 5, height := 5 }

/-- C1: the export step computes its output path once from the format name,
so a single schema name writes exactly one file for that schema, but "all"
writes the mona, mingyulab and good exports to one and the same path
`<output-dir>/all.json` — the three write paths are not distinct, each
save overwriting the previous one. -/
theorem export_all_shares_one_path :
    exportWrites "." "mona" = some [(ExportSchema.mona, "./mona.json")] ∧
    exportWrites "." "all" =
      some [(ExportSchema.mona, "./all.json"),
            (ExportSchema.mingyulab, "./all.json"),
            (ExportSchema.good, "./all.json")] ∧
    ¬ (((exportWrites "." "all").getD []).map Prod.snd).Nodup := by
  refine ⟨by decide, by decide, by decide⟩

/-- C2: aspect-bucket selection succeeds exactly on the five cross-multiplied
ratio tests 43:18, 16:9, 8:5, 4:3, 7:3, and for a window rectangle matching
none of them the whole session aborts with the unsupported-resolution error
before any scanning happens, producing no geometry and no records. -/
theorem unsupported_resolution_fatal :
    (∀ rect : PixelRect,
      (selectBucket rect).isSome = true ↔
        (rect.height * 43 = rect.width * 18 ∨ rect.height * 16 = rect.width * 9 ∨
         rect.height * 8 = rect.width * 5 ∨ rect.height * 4 = rect.width * 3 ∨
         rect.height * 7 = rect.width * 3)) ∧
    (∀ (rect : PixelRect) (cfg : ScannerConfig) (feed : List ArtifactRecord),
      ¬ (rect.height * 43 = rect.width * 18 ∨ rect.height * 16 = rect.width * 9 ∨
         rect.height * 8 = rect.width * 5 ∨ rect.height * 4 = rect.width * 3 ∨
         rect.height * 7 = rect.width * 3) →
      runSession rect cfg feed = Except.error "不支持的分辨率") := by
  have hnone : ∀ rect : PixelRect,
      ¬ (rect.height * 43 = rect.width * 18 ∨ rect.height * 16 = rect.width * 9 ∨
         rect.height * 8 = rect.width * 5 ∨ rect.height * 4 = rect.width * 3 ∨
         rect.height * 7 = rect.width * 3) → selectBucket rect = none := by
    intro rect h
    push_neg at h
    simp [selectBucket, h.1, h.2.1, h.2.2.1, h.2.2.2.1, h.2.2.2.2]
  constructor
  · intro rect
    constructor
    · intro hsome
      by_contra h
      rw [hnone rect h] at hsome
      simp at hsome
    · intro h
      unfold selectBucket
      split_ifs with h1 h2 h3 h4 h5
      · rfl
      · rfl
      · rfl
      · rfl
      · rfl
      · exact absurd h (by tauto)
  · intro rect cfg feed h
    unfold runSession deriveScanInfo
    rw [hnone rect h]

/-- C2 witness: a 5:4 window (width 5, height 4) matches no bucket and the
session aborts with the unsupported-resolution error. -/
theorem unsupported_resolution_fatal_witness :
    runSession ⟨0, 0, 5, 4⟩ sampleConfig [] = Except.error "不支持的分辨率" :=
  unsupported_resolution_fatal.2 ⟨0, 0, 5, 4⟩ sampleConfig [] (by decide)

/-- C10: the Linux `detect_gi_window` returns `is_cloud = false` for every
input it succeeds on, so the cloud settle wait is never selected on that
platform — the session wait is always the local `maxWaitSwitch`. -/
theorem detect_linux_never_cloud :
    (∀ (posLines : List String) (rect : PixelRect) (b : Bool),
      detect_gi_window posLines = some (rect, b) → b = false) ∧
    (∀ (cfg : ScannerConfig) (posLines : List String) (rect : PixelRect) (b : Bool),
      detect_gi_window posLines = some (rect, b) →
      switchWait cfg b = cfg.maxWaitSwitch) := by
  have key : ∀ (posLines : List String) (rect : PixelRect) (b : Bool),
      detect_gi_window posLines = some (rect, b) → b = false := by
    intro posLines rect b hdet
    unfold detect_gi_window at hdet
    split at hdet
    · split at hdet
      · simp only [Option.some.injEq, Prod.mk.injEq] at hdet
        exact hdet.2.symm
      · exact absurd hdet (by simp)
    · exact absurd hdet (by simp)
  refine ⟨key, ?_⟩
  intro cfg posLines rect b hdet
  rw [key posLines rect b hdet]
  simp [switchWait]

/-- C10 witness: a concrete xwininfo output yields `is_cloud = false` and
the local settle wait. -/
theorem detect_linux_never_cloud_witness :
    false = false ∧ switchWait sampleConfig false = sampleConfig.maxWaitSwitch :=
  ⟨detect_linux_never_cloud.1 ["10", "20", "300", "200"] ⟨10, 20, 300, 200⟩ false (by decide),
   detect_linux_never_cloud.2 sampleConfig ["10", "20", "300", "200"] ⟨10, 20, 300, 200⟩ false
     (by decide)⟩

/-- C7: for every window rectangle whose geometry derivation succeeds and
every operator-supplied offset pair, the derived geometry equals the
zero-offset geometry translated uniformly by `(offsetX, offsetY)`, and the
layout constants (the window-relative field rectangles) are unchanged. -/
theorem geometry_offsets_translate :
    ∀ (rect : PixelRect) (info : ScanInfo) (ox oy : Int),
      deriveScanInfo rect = Except.ok info →
      absoluteRects (applyOffsets info ox oy) =
        (absoluteRects (applyOffsets info 0 0)).map (translateRect ox oy) ∧
      (applyOffsets info ox oy).fields = info.fields := by
  intro rect info ox oy _
  refine ⟨?_, rfl⟩
  simp only [absoluteRects, applyOffsets, List.map_map]
  apply List.map_congr_left
  intro r _
  simp only [Function.comp_apply, translateRect]
  congr 1 <;> ring

/-- C7 witness: the 16:9 geometry for a 1600×900 window translated by
`(3, 5)`. -/
theorem geometry_offsets_translate_witness :
    absoluteRects (applyOffsets sampleInfo 3 5) =
      (absoluteRects (applyOffsets sampleInfo 0 0)).map (translateRect 3 5) ∧
    (applyOffsets sampleInfo 3 5).fields = sampleInfo.fields :=
  geometry_offsets_translate ⟨0, 0, 1600, 900⟩ sampleInfo 3 5 (by rfl)

/-- C3: best-path decoding collapses consecutive repeats, drops blanks and
concatenates the survivors: `[a,a,∅,b,b,b,∅,c]` decodes to `"abc"` for any
symbols `a`, `b`, `c`, and every empty or all-blank sequence decodes to the
empty string. -/
theorem ctc_decode_policy :
    (∀ a b c : Char,
      ctcDecode [some a, some a, none, some b, some b, some b, none, some c] =
        String.mk [a, b, c]) ∧
    (∀ seq : List (Option Char), (∀ s ∈ seq, s = none) → ctcDecode seq = "") ∧
    ctcDecode ([] : List (Option Char)) = "" := by
  have hblank : ∀ seq : List (Option Char), (∀ s ∈ seq, s = none) →
      (collapseRepeats seq).filterMap id = ([] : List Char) := by
    intro seq
    induction seq with
    | nil => intro _; rfl
    | cons hd tl ih =>
        intro h
        have hhd : hd = none := h hd (by simp)
        subst hhd
        cases tl with
        | nil => rfl
        | cons b rest =>
            have hb : b = none := h b (by simp)
            subst hb
            rw [collapseRepeats]
            rw [if_pos rfl]
            exact ih (fun s hs => h s (List.mem_cons_of_mem _ hs))
  refine ⟨?_, ?_, rfl⟩
  · intro a b c
    simp [ctcDecode, collapseRepeats]
  · intro seq h
    unfold ctcDecode
    rw [hblank seq h]

/-- C3 witness: the concrete example sequence over the characters a, b, c
and a concrete all-blank sequence. -/
theorem ctc_decode_policy_witness :
    ctcDecode [some 'a', some 'a', none, some 'b', some 'b', some 'b', none, some 'c'] =
      String.mk ['a', 'b', 'c'] ∧
    ctcDecode [none, none, none] = "" :=
  ⟨ctc_decode_policy.1 'a' 'b' 'c',
   ctc_decode_policy.2.1 [none, none, none] (by decide)⟩

/-- C8: cropping clips to the frame — the sub-image never exceeds the frame
dimensions, and each of its pixels is read from coordinates strictly inside
the frame, so no out-of-bounds access occurs even for a rectangle that
extends past the frame. -/
theorem crop_clamps_to_frame :
    ∀ (im : RawImage) (r : PixelRect),
      (crop im r).w ≤ im.w ∧ (crop im r).h ≤ im.h ∧
      (∀ i j, i < (crop im r).h → j < (crop im r).w →
        cropY0 im r + i < im.h ∧ cropX0 im r + j < im.w ∧
        (crop im r).data i j = im.data (cropY0 im r + i) (cropX0 im r + j)) := by
  intro im r
  refine ⟨?_, ?_, ?_⟩
  · simp only [crop, cropX1, cropX0]
    omega
  · simp only [crop, cropY1, cropY0]
    omega
  · intro i j hi hj
    refine ⟨?_, ?_, rfl⟩
    · simp only [crop, cropY0, cropY1] at hi ⊢
      omega
    · simp only [crop, cropX0, cropX1] at hj ⊢
      omega

/-- C8 witness: cropping a 5×5 rectangle at (2, 1) out of a 4×3 frame stays
inside the frame at pixel (0, 0) of the sub-image. -/
theorem crop_clamps_to_frame_witness :
    cropY0 imEx rEx + 0 < imEx.h ∧ cropX0 imEx rEx + 0 < imEx.w ∧
    (crop imEx rEx).data 0 0 = imEx.data (cropY0 imEx rEx + 0) (cropX0 imEx rEx + 0) :=
  (crop_clamps_to_frame imEx rEx).2.2 0 0 (by decide) (by decide)

/-- C9: the WaitForRender poll loop is bounded — it always settles within
its poll budget, and when the fingerprint never changes it settles exactly
when the budget is spent and the slot still captures exactly one frame. -/
theorem wait_for_render_bounded :
    (∀ (fp : Nat → Nat) (prev fuel t : Nat), pollUntil fp prev fuel t ≤ t + fuel) ∧
    (∀ (fp : Nat → Nat) (prev fuel t : Nat), (∀ s, fp s = prev) →
      pollUntil fp prev fuel t = t + fuel ∧
      (slotCaptures fp prev fuel t).length = 1) := by
  have hbound : ∀ (fp : Nat → Nat) (prev fuel t : Nat), pollUntil fp prev fuel t ≤ t + fuel := by
    intro fp prev fuel
    induction fuel with
    | zero => intro t; simp [pollUntil]
    | succ n ih =>
        intro t
        rw [pollUntil]
        split_ifs
        · have := ih (t + 1)
          omega
        · omega
  have hstall : ∀ (fp : Nat → Nat) (prev fuel t : Nat), (∀ s, fp s = prev) →
      pollUntil fp prev fuel t = t + fuel := by
    intro fp prev fuel
    induction fuel with
    | zero => intro t _; simp [pollUntil]
    | succ n ih =>
        intro t h
        rw [pollUntil]
        rw [if_pos (h t)]
        rw [ih (t + 1) h]
        omega
  exact ⟨hbound, fun fp prev fuel t h => ⟨hstall fp prev fuel t h, rfl⟩⟩

/-- C9 witness: a fingerprint source that never changes exhausts a budget
of 5 polls starting at tick 0 and the slot captures exactly once. -/
theorem wait_for_render_bounded_witness :
    pollUntil (fun _ => 7) 7 5 0 = 0 + 5 ∧
    (slotCaptures (fun _ => 7) 7 5 0).length = 1 :=
  wait_for_render_bounded.2 (fun _ => 7) 7 5 0 (fun _ => rfl)

/-- Running the loop over a block of records none of which repeats the
first-seen record: every slot is scanned, the passing records are appended
in order, and the loop continues with the remaining feed. -/
theorem scanLoop_run (cfg : ScannerConfig) (f : ArtifactRecord) :
    ∀ (rs : List ArtifactRecord) (st : ScanState) (rest : List ArtifactRecord),
      st.firstRecord = some f →
      (∀ r ∈ rs, r ≠ f) →
      st.scanned + rs.length ≤ cfg.totalCount →
      scanLoop cfg st (rs ++ rest) =
        scanLoop cfg
          { results := st.results ++ rs.filter (passesFilter cfg)
            scanned := st.scanned + rs.length
            firstRecord := some f } rest := by
  intro rs
  induction rs with
  | nil =>
      intro st rest h1 _ _
      simp only [List.nil_append, List.filter_nil, List.append_nil, List.length_nil,
        Nat.add_zero]
      rw [← h1]
  | cons r rs ih =>
      intro st rest h1 h2 h3
      have hne : r ≠ f := h2 r (List.mem_cons_self r rs)
      have hlt : ¬ cfg.totalCount ≤ st.scanned := by
        simp only [List.length_cons] at h3
        omega
      have hstop : ¬ stopByRepeat st r = true := by
        simp [stopByRepeat, h1, hne]
      rw [List.cons_append, scanLoop, if_neg hlt, if_neg hstop]
      rw [ih (stepState cfg st r) rest (by simp [stepState, h1])
        (fun x hx => h2 x (List.mem_cons_of_mem r hx))
        (by simp only [stepState, List.length_cons] at h3 ⊢; omega)]
      congr 1
      by_cases hp : passesFilter cfg r = true <;>
        simp [stepState, hp, List.filter_cons, h1] <;> omega

/-- A slot whose record triggers the repeat test (or a session whose slot
budget is exhausted) leaves the state unchanged: the loop halts without
visiting the rest of the feed. -/
theorem scanLoop_stop (cfg : ScannerConfig) (st : ScanState) (r : ArtifactRecord)
    (extra : List ArtifactRecord) (h : stopByRepeat st r = true) :
    scanLoop cfg st (r :: extra) = st := by
  rw [scanLoop]
  split_ifs <;> simp_all

/-- C4: for a feed of N pairwise-distinct passing records followed by a
repeat of the first, the orchestrator accumulates exactly those N records,
counts N scanned slots, and halts without visiting anything after the
repeat; and the repeat test fires exactly when the new record equals the
first-ever recognized record and at least one slot has been accepted. -/
theorem scan_stops_on_first_repeat :
    (∀ (cfg : ScannerConfig) (r0 : ArtifactRecord) (tl extra : List ArtifactRecord),
      (r0 :: tl).Nodup →
      (∀ r ∈ r0 :: tl, passesFilter cfg r = true) →
      tl.length + 1 ≤ cfg.totalCount →
      scanLoop cfg initialState (r0 :: (tl ++ r0 :: extra)) =
        { results := r0 :: tl, scanned := tl.length + 1, firstRecord := some r0 }) ∧
    (∀ (st : ScanState) (r : ArtifactRecord),
      stopByRepeat st r = true ↔ st.firstRecord = some r ∧ 1 ≤ st.scanned) := by
  constructor
  · intro cfg r0 tl extra hnd hpass htot
    have h0 : r0 ∉ tl := (List.nodup_cons.mp hnd).1
    have hne : ∀ r ∈ tl, r ≠ r0 := fun r hr he => h0 (he ▸ hr)
    have hp0 : passesFilter cfg r0 = true := hpass r0 (List.mem_cons_self r0 tl)
    have hft : tl.filter (passesFilter cfg) = tl :=
      List.filter_eq_self.mpr (fun a ha => hpass a (List.mem_cons_of_mem r0 ha))
    rw [scanLoop, if_neg (by simp [initialState]; omega),
      if_neg (by simp [stopByRepeat, initialState])]
    rw [scanLoop_run cfg r0 tl (stepState cfg initialState r0) (r0 :: extra)
      (by simp [stepState, initialState])
      hne
      (by simp [stepState, initialState]; omega)]
    rw [scanLoop_stop cfg _ r0 extra
      (by simp [stopByRepeat, stepState, initialState])]
    simp [stepState, initialState, hp0, hft]
    omega
  · intro st r
    unfold stopByRepeat
    cases hfr : st.firstRecord with
    | none => simp [hfr]
    | some f =>
        simp only [Bool.and_eq_true, decide_eq_true_eq, Option.some.injEq]
        constructor
        · intro h
          exact ⟨by rw [h.1], h.2⟩
        · intro h
          exact ⟨h.1.symm, h.2⟩

/-- C4 witness: two distinct passing records followed by a repeat of the
first accumulate exactly those two records and halt. -/
theorem scan_stops_on_first_repeat_witness :
    scanLoop sampleConfig initialState (recA :: ([recB] ++ recA :: [])) =
      { results := recA :: [recB], scanned := [recB].length + 1, firstRecord := some recA } :=
  scan_stops_on_first_repeat.1 sampleConfig recA [recB] [] (by decide) (by decide) (by decide)

/-- C5: for a feed whose later records never repeat the first, every slot
increments the scanned counter — including slots whose record fails the
min-star/min-level filter — while the final results are exactly the feed
filtered in scan order, so failing records are omitted and the retained
order is preserved. -/
theorem filter_skips_but_counts :
    ∀ (cfg : ScannerConfig) (r0 : ArtifactRecord) (tl : List ArtifactRecord),
      (∀ r ∈ tl, r ≠ r0) →
      tl.length + 1 ≤ cfg.totalCount →
      (scanLoop cfg initialState (r0 :: tl)).scanned = tl.length + 1 ∧
      (scanLoop cfg initialState (r0 :: tl)).results =
        (r0 :: tl).filter (passesFilter cfg) := by
  intro cfg r0 tl hne htot
  have hrun := scanLoop_run cfg r0 tl (stepState cfg initialState r0) []
    (by simp [stepState, initialState]) hne
    (by simp [stepState, initialState]; omega)
  rw [List.append_nil] at hrun
  rw [scanLoop, if_neg (by simp [initialState]; omega),
    if_neg (by simp [stopByRepeat, initialState]), hrun]
  by_cases hp : passesFilter cfg r0 = true <;>
    simp [scanLoop, stepState, initialState, List.filter_cons, hp] <;> omega

/-- C5 witness: a passing record followed by a distinct failing record —
both slots are counted, only the passing record is retained. -/
theorem filter_skips_but_counts_witness :
    (scanLoop sampleConfig initialState (recA :: [recC])).scanned = [recC].length + 1 ∧
    (scanLoop sampleConfig initialState (recA :: [recC])).results =
      (recA :: [recC]).filter (passesFilter sampleConfig) :=
  filter_skips_but_counts sampleConfig recA [recC] (by decide) (by decide)

/-- C6: the session invariant — accumulated results never outnumber the
scanned slots, the scanned slots never exceed the configured or
auto-detected total, and every accumulated record passed the filter; the
invariant is preserved through any feed and holds for every final result
of a fresh session. -/
theorem session_invariant :
    (∀ (cfg : ScannerConfig) (st : ScanState) (feed : List ArtifactRecord),
      st.results.length ≤ st.scanned → st.scanned ≤ cfg.totalCount →
      (∀ r ∈ st.results, passesFilter cfg r = true) →
      ((scanLoop cfg st feed).results.length ≤ (scanLoop cfg st feed).scanned ∧
       (scanLoop cfg st feed).scanned ≤ cfg.totalCount ∧
       ∀ r ∈ (scanLoop cfg st feed).results, passesFilter cfg r = true)) ∧
    (∀ (cfg : ScannerConfig) (feed : List ArtifactRecord),
      (scanLoop cfg initialState feed).results.length ≤ cfg.totalCount ∧
      ∀ r ∈ (scanLoop cfg initialState feed).results, passesFilter cfg r = true) := by
  have main : ∀ (cfg : ScannerConfig) (feed : List ArtifactRecord) (st : ScanState),
      st.results.length ≤ st.scanned → st.scanned ≤ cfg.totalCount →
      (∀ r ∈ st.results, passesFilter cfg r = true) →
      ((scanLoop cfg st feed).results.length ≤ (scanLoop cfg st feed).scanned ∧
       (scanLoop cfg st feed).scanned ≤ cfg.totalCount ∧
       ∀ r ∈ (scanLoop cfg st feed).results, passesFilter cfg r = true) := by
    intro cfg feed
    induction feed with
    | nil =>
        intro st h1 h2 h3
        exact ⟨h1, h2, h3⟩
    | cons r rest ih =>
        intro st h1 h2 h3
        rw [scanLoop]
        split_ifs with hc hs
        · exact ⟨h1, h2, h3⟩
        · exact ⟨h1, h2, h3⟩
        · apply ih
          · by_cases hp : passesFilter cfg r = true <;>
              simp [stepState, hp] <;> omega
          · simp only [stepState]
            omega
          · intro x hx
            by_cases hp : passesFilter cfg r = true
            · simp only [stepState, hp, if_pos] at hx
              rcases List.mem_append.mp hx with hx | hx
              · exact h3 x hx
              · rw [List.mem_singleton.mp hx]
                exact hp
            · simp only [stepState, hp, if_neg, ite_false] at hx
              exact h3 x hx
  constructor
  · intro cfg st feed h1 h2 h3
    exact main cfg feed st h1 h2 h3
  · intro cfg feed
    have h := main cfg feed initialState (by simp [initialState]) (by simp [initialState])
      (by simp [initialState])
    exact ⟨le_trans h.1 h.2.1, h.2.2⟩

/-- C6 witness: the invariant after scanning one concrete record from a
fresh session under the sample configuration. -/
theorem session_invariant_witness :
    (scanLoop sampleConfig initialState [recA]).results.length ≤
      (scanLoop sampleConfig initialState [recA]).scanned ∧
    (scanLoop sampleConfig initialState [recA]).scanned ≤ sampleConfig.totalCount ∧
    ∀ r ∈ (scanLoop sampleConfig initialState [recA]).results,
      passesFilter sampleConfig r = true :=
  session_invariant.1 sampleConfig initialState [recA] (by decide) (by decide) (by decide)

end Yas
